import Mathlib

/-!
# `fork.c`: fork, exec `ls` in the child, wait in the parent

A shallow embedding of `main` from `src/fork.c`.

`fork` makes control continue in two contexts.  Each context is one run of
`main` against a `World`: the answers the operating system gives to the calls
that context makes.  A run yields the ordered list of library calls the context
made (`Event`s, each with its arguments and its result) and the way the context
stopped executing this program (`Outcome`).

A `printf` event is the call `printf(fmt, args)`, not yet a write: the text
goes through the `stdout` stream, whose buffering is modelled by `stdioStep` and
`lowerFrom`, which turn the calls of a run into `Action`s, the calls together
with the writes to file descriptor 1.
-/

namespace Fork

/-- The answers of the operating system to the calls one context of `main`
makes.  `execlpRet = none` means the image replacement succeeds (the call does
not return); `some r` means `execlp` returns `r`.  `childStatus` is the
termination status of the awaited child, `waitRet` the value `wait` returns. -/
structure World where
  forkRet : Int
  getpidRet : Int
  execlpRet : Option Int
  waitRet : Int
  childStatus : Int
deriving DecidableEq, Repr

/-- One library call made by `main`, with its arguments and its result.
For `wait`, `stored` is what the call writes through its status pointer:
`none` when the pointer is `NULL`. -/
inductive Event where
  | fork (ret : Int)
  | perror (msg : String)
  | exit (status : Int)
  | getpid (ret : Int)
  | printf (fmt : String) (args : List Int)
  | execlp (file : String) (argv : List String) (ret : Option Int)
  | wait (stored : Option Int) (ret : Int)
deriving DecidableEq, Repr

/-- Non-local control: `exit` was called, the process image was replaced, or a
`break` statement leaves the enclosing `switch`. -/
inductive Signal where
  | exitCalled (status : Int)
  | imageReplaced
  | brk
deriving DecidableEq, Repr

/-- A computation of one context: it extends the list of calls made so far and
either yields a value or raises a `Signal`. -/
def Proc (α : Type) : Type := World → List Event → List Event × Except Signal α

/-- Sequencing: the second computation runs only if the first one returned. -/
def Proc.bind {α β : Type} (m : Proc α) (f : α → Proc β) : Proc β :=
  fun w tr =>
    match m w tr with
    | (tr1, Except.ok a) => f a w tr1
    | (tr1, Except.error s) => (tr1, Except.error s)

instance : Monad Proc where
  pure a := fun _ tr => (tr, Except.ok a)
  bind := Proc.bind

/-- Record a call and return its result. -/
def call {α : Type} (e : Event) (a : α) : Proc α :=
  fun _ tr => (tr ++ [e], Except.ok a)

/-- Record a call that does not return. -/
def callNoReturn {α : Type} (e : Event) (s : Signal) : Proc α :=
  fun _ tr => (tr ++ [e], Except.error s)

/-- The call `fork()`. -/
def fork : Proc Int :=
  fun w => call (Event.fork w.forkRet) w.forkRet w

/-- The call `perror(msg)` (writes to standard error). -/
def perror (msg : String) : Proc Unit :=
  call (Event.perror msg) ()

/-- The call `exit(status)`: never returns. -/
def exit {α : Type} (status : Int) : Proc α :=
  callNoReturn (Event.exit status) (Signal.exitCalled status)

/-- The call `getpid()`. -/
def getpid : Proc Int :=
  fun w => call (Event.getpid w.getpidRet) w.getpidRet w

/-- The call `printf(fmt, args...)` (writes to standard output). -/
def printf (fmt : String) (args : List Int) : Proc Unit :=
  call (Event.printf fmt args) ()

/-- The call `execlp(file, arg0, ..., NULL)`: returns only on failure. -/
def execlp (file : String) (argv : List String) : Proc Int :=
  fun w =>
    match w.execlpRet with
    | none => callNoReturn (Event.execlp file argv none) Signal.imageReplaced w
    | some r => call (Event.execlp file argv (some r)) r w

/-- The call `wait(stat_loc)`; `statLocNull` says the argument is `NULL`, in
which case the child's status is not stored anywhere.  The result is the pair
of the stored status and the return value. -/
def wait (statLocNull : Bool) : Proc (Option Int × Int) :=
  fun w =>
    let stored := if statLocNull then none else some w.childStatus
    call (Event.wait stored w.waitRet) (stored, w.waitRet) w

/-- The statement `break;`. -/
def brk {α : Type} : Proc α :=
  fun _ tr => (tr, Except.error Signal.brk)

/-- The format string of the child's announcement. -/
def childFmt : String := "child process takes hold, its process id is %d\n"

/-- The format string of the parent's announcement. -/
def parentFmt : String := "parent process takes hold, its process id is %d\n"

/-- The format string of the completion line. -/
def doneFmt : String := "child process has finished the ls command\n"

/-- The statements under `case -1:`. -/
def caseMinusOne : Proc Unit := do
  perror "fork failed"
  exit 1

/-- The statements under `case 0:`. -/
def caseZero : Proc Unit := do
  let self ← getpid
  printf childFmt [self]
  let _ ← execlp "/bin/ls" ["ls"]
  brk

/-- The statements under `default:`. -/
def caseDefault : Proc Unit := do
  let self ← getpid
  printf parentFmt [self]
  let _ ← wait true
  printf doneFmt []
  brk

/-- The body of `switch(pid)`: control enters at the matching label and runs
through the following labels in textual order until a `break` (or a call that
does not return). -/
def switchBody (pid : Int) : Proc Unit :=
  if pid = -1 then do
    caseMinusOne
    caseZero
    caseDefault
  else if pid = 0 then do
    caseZero
    caseDefault
  else
    caseDefault

/-- The statement `switch(pid){ ... }`: a `break` inside ends the statement. -/
def switchStmt (pid : Int) : Proc Unit :=
  fun w tr =>
    match switchBody pid w tr with
    | (tr1, Except.error Signal.brk) => (tr1, Except.ok ())
    | r => r

/-- The function `main`.  Reaching the closing brace of `main` returns 0. -/
def main : Proc Int := do
  let pid ← fork
  switchStmt pid
  pure 0

/-- How a context stops executing this program. -/
inductive Outcome where
  | exitCalled (status : Int)
  | mainReturned (value : Int)
  | imageReplaced
deriving DecidableEq, Repr

/-- One context of the program: the calls it makes and how it stops. -/
def runMain (w : World) : List Event × Outcome :=
  match main w [] with
  | (tr, Except.ok v) => (tr, Outcome.mainReturned v)
  | (tr, Except.error (Signal.exitCalled s)) => (tr, Outcome.exitCalled s)
  | (tr, Except.error Signal.imageReplaced) => (tr, Outcome.imageReplaced)
  | (tr, Except.error Signal.brk) => (tr, Outcome.mainReturned 0)

/-- The calls of a run. -/
def trace (w : World) : List Event := (runMain w).1

/-- The outcome of a run. -/
def outcome (w : World) : Outcome := (runMain w).2

/-- The exit status of the process, when this program determines it: the
argument of `exit`, or the value `main` returns.  After an image replacement
the new image determines it. -/
def exitStatus : Outcome → Option Int
  | Outcome.exitCalled s => some (s % 256)
  | Outcome.mainReturned v => some (v % 256)
  | Outcome.imageReplaced => none

/-- The image-replacement requests of a run: file and argument vector. -/
def execRequests : List Event → List (String × List String)
  | [] => []
  | Event.execlp file argv _ :: tr => (file, argv) :: execRequests tr
  | _ :: tr => execRequests tr

/-- The `wait` calls of a run: what was stored and what was returned. -/
def waitCalls : List Event → List (Option Int × Int)
  | [] => []
  | Event.wait stored ret :: tr => (stored, ret) :: waitCalls tr
  | _ :: tr => waitCalls tr

/-- The `printf` calls of a run, in order: format and arguments of each.  A
call hands its text to the stdio stream; when that text is written to file
descriptor 1 is decided by `stdioStep` and `lowerFrom`. -/
def printfCalls : List Event → List (String × List Int)
  | [] => []
  | Event.printf fmt args :: tr => (fmt, args) :: printfCalls tr
  | _ :: tr => printfCalls tr

/-- The calls written under `case -1:`. -/
def Event.underCaseMinusOne : Event → Bool
  | Event.perror _ => true
  | Event.exit _ => true
  | _ => false

/-- The calls written under `case 0:` (apart from `getpid`, which also occurs
under `default:`). -/
def Event.underCaseZero : Event → Bool
  | Event.printf fmt _ => fmt == childFmt
  | Event.execlp _ _ _ => true
  | _ => false

/-- The calls written under `default:` (apart from `getpid`). -/
def Event.underDefault : Event → Bool
  | Event.printf fmt _ => fmt == parentFmt || fmt == doneFmt
  | Event.wait _ _ => true
  | _ => false

/-- The buffering mode of the `stdout` stream (ISO C 7.21.3): at program start
the stream is fully buffered exactly when it is known not to refer to an
interactive device (a pipe or a file); on a terminal it is line buffered. -/
inductive BufMode where
  | unbuffered
  | lineBuffered
  | fullyBuffered
deriving DecidableEq, Repr

/-- What a context does, one level below the library calls: the calls of the
trace, and between them the writes of text to file descriptor 1. -/
inductive Action where
  | call (e : Event)
  | write (text : String)
deriving DecidableEq, Repr

/-- The characters `printf` produces from a format: each `%d` is replaced by the
decimal form of the next argument, every other character is copied. -/
def renderChars : List Char → List Int → List Char
  | '%' :: 'd' :: cs, a :: rest => (toString a).toList ++ renderChars cs rest
  | c :: cs, args => c :: renderChars cs args
  | [], _ => []

/-- The text of the call `printf(fmt, args...)`. -/
def render (fmt : String) (args : List Int) : String :=
  String.mk (renderChars fmt.toList args)

/-- Split buffered text after its last newline: what a line-buffered stream
writes, and what it retains. -/
def splitAfterLastNewline (text : String) : String × String :=
  (String.mk (text.toList.reverse.dropWhile (fun c => c != '\n')).reverse,
    String.mk (text.toList.reverse.takeWhile (fun c => c != '\n')).reverse)

/-- A write of the given text, unless it is empty. -/
def writeOf (text : String) : List Action :=
  if text.isEmpty then [] else [Action.write text]

/-- One call seen by the `stdout` stream: a `printf` call appends its text to
the buffer, and the mode decides what is written at once; every other call
leaves the buffer alone (`perror` writes to standard error).  The text of this
program is shorter than any stream buffer, so a full buffer never forces a
write. -/
def stdioStep (mode : BufMode) (buf : String) (e : Event) : String × List Action :=
  match e with
  | Event.printf fmt args =>
    match mode with
    | BufMode.unbuffered =>
      ("", Action.call e :: writeOf (buf ++ render fmt args))
    | BufMode.lineBuffered =>
      ((splitAfterLastNewline (buf ++ render fmt args)).2,
        Action.call e :: writeOf (splitAfterLastNewline (buf ++ render fmt args)).1)
    | BufMode.fullyBuffered =>
      (buf ++ render fmt args, [Action.call e])
  | _ => (buf, [Action.call e])

/-- The calls of a run together with the writes to file descriptor 1 they
cause.  When the context ends by `exit` or by returning from `main`, the
stream is flushed; when its image is replaced, the buffer is lost with the
image. -/
def lowerFrom (mode : BufMode) (o : Outcome) : String → List Event → List Action
  | buf, [] =>
    match o with
    | Outcome.imageReplaced => []
    | Outcome.exitCalled _ => writeOf buf
    | Outcome.mainReturned _ => writeOf buf
  | buf, e :: tr =>
    (stdioStep mode buf e).2 ++ lowerFrom mode o (stdioStep mode buf e).1 tr

/-- The calls and writes of one context.  Its buffer starts empty: `fork` is
the first call of `main`, so nothing is buffered when the child is created. -/
def actions (mode : BufMode) (w : World) : List Action :=
  lowerFrom mode (outcome w) "" (trace w)

/-- The texts written to file descriptor 1, in order. -/
def fdWrites : List Action → List String
  | [] => []
  | Action.write text :: acts => text :: fdWrites acts
  | Action.call _ :: acts => fdWrites acts

/-- The lines of a text, each without its newline; a last part without a
newline counts as a line when it is not empty. -/
def linesFrom (cur : List Char) : List Char → List String
  | [] => if cur.isEmpty then [] else [String.mk cur.reverse]
  | c :: cs =>
    if c = '\n' then String.mk cur.reverse :: linesFrom [] cs
    else linesFrom (c :: cur) cs

/-- The lines a context writes to standard output. -/
def stdoutLines (acts : List Action) : List String :=
  linesFrom [] (String.join (fdWrites acts)).toList

/-! ## The four runs of `main` -/

theorem runMain_fork_failed (w : World) (h : w.forkRet = -1) :
    runMain w =
      ([Event.fork (-1), Event.perror "fork failed", Event.exit 1],
        Outcome.exitCalled 1) := by
  simp [runMain, main, fork, call, switchStmt, switchBody, h, bind, Proc.bind,
    caseMinusOne, perror, exit, callNoReturn]

theorem runMain_child_replaced (w : World) (h : w.forkRet = 0)
    (he : w.execlpRet = none) :
    runMain w =
      ([Event.fork 0, Event.getpid w.getpidRet,
          Event.printf childFmt [w.getpidRet],
          Event.execlp "/bin/ls" ["ls"] none],
        Outcome.imageReplaced) := by
  simp [runMain, main, fork, call, switchStmt, switchBody, h, he, bind,
    Proc.bind, caseZero, getpid, printf, execlp, callNoReturn]

theorem runMain_child_returned (w : World) (h : w.forkRet = 0) (r : Int)
    (he : w.execlpRet = some r) :
    runMain w =
      ([Event.fork 0, Event.getpid w.getpidRet,
          Event.printf childFmt [w.getpidRet],
          Event.execlp "/bin/ls" ["ls"] (some r)],
        Outcome.mainReturned 0) := by
  simp [runMain, main, fork, call, switchStmt, switchBody, h, he, bind,
    Proc.bind, caseZero, getpid, printf, execlp, brk]

theorem runMain_parent (w : World) (h0 : w.forkRet ≠ 0) (h1 : w.forkRet ≠ -1) :
    runMain w =
      ([Event.fork w.forkRet, Event.getpid w.getpidRet,
          Event.printf parentFmt [w.getpidRet],
          Event.wait none w.waitRet,
          Event.printf doneFmt []],
        Outcome.mainReturned 0) := by
  simp [runMain, main, fork, call, switchStmt, switchBody, h0, h1, bind,
    Proc.bind, caseDefault, getpid, printf, wait, brk]

/-! ## The claims -/

/-- C1: when `fork` returns -1, `main` calls `exit(1)` as its last call, so the
process ends with exit status 1; before that it makes no `execlp` call, no
`wait` call and no `printf` call. -/
theorem fork_failure_exits_one_without_exec_wait_output (w : World)
    (h : w.forkRet = -1) :
    outcome w = Outcome.exitCalled 1 ∧
      exitStatus (outcome w) = some 1 ∧
      (trace w).getLast? = some (Event.exit 1) ∧
      execRequests (trace w) = [] ∧
      waitCalls (trace w) = [] ∧
      printfCalls (trace w) = [] := by
  simp [outcome, trace, runMain_fork_failed w h, exitStatus, execRequests,
    waitCalls, printfCalls]

theorem fork_failure_exits_one_witness :
    outcome ⟨-1, 4242, none, 0, 0⟩ = Outcome.exitCalled 1 ∧
      exitStatus (outcome ⟨-1, 4242, none, 0, 0⟩) = some 1 ∧
      (trace ⟨-1, 4242, none, 0, 0⟩).getLast? = some (Event.exit 1) ∧
      execRequests (trace ⟨-1, 4242, none, 0, 0⟩) = [] ∧
      waitCalls (trace ⟨-1, 4242, none, 0, 0⟩) = [] ∧
      printfCalls (trace ⟨-1, 4242, none, 0, 0⟩) = [] :=
  fork_failure_exits_one_without_exec_wait_output ⟨-1, 4242, none, 0, 0⟩ rfl

/-- C2: in the parent context of a successful `fork` (a positive child pid is
returned), `main` runs to its closing brace and the process ends with exit
status 0, whatever `wait` returns and however the child terminated. -/
theorem parent_exits_zero (w : World) (h : 0 < w.forkRet) :
    outcome w = Outcome.mainReturned 0 ∧ exitStatus (outcome w) = some 0 := by
  have h0 : w.forkRet ≠ 0 := by omega
  have h1 : w.forkRet ≠ -1 := by omega
  simp [outcome, runMain_parent w h0 h1, exitStatus]

theorem parent_exits_zero_witness :
    outcome ⟨4243, 4242, none, 4243, 9⟩ = Outcome.mainReturned 0 ∧
      exitStatus (outcome ⟨4243, 4242, none, 4243, 9⟩) = some 0 :=
  parent_exits_zero ⟨4243, 4242, none, 4243, 9⟩ (by decide)

/-- C3: in the parent context the trace splits at its only `wait` call: the
parent's announcement is printed before it, the completion line is not printed
before it, and the completion line is printed after it. -/
theorem completion_line_after_wait (w : World) (h0 : w.forkRet ≠ 0)
    (h1 : w.forkRet ≠ -1) :
    ∃ pre post, trace w = pre ++ Event.wait none w.waitRet :: post ∧
      waitCalls pre = [] ∧ waitCalls post = [] ∧
      Event.printf parentFmt [w.getpidRet] ∈ pre ∧
      (∀ args, Event.printf doneFmt args ∉ pre) ∧
      Event.printf doneFmt [] ∈ post := by
  refine ⟨[Event.fork w.forkRet, Event.getpid w.getpidRet,
    Event.printf parentFmt [w.getpidRet]], [Event.printf doneFmt []], ?_⟩
  have hne : doneFmt ≠ parentFmt := by decide
  simp [trace, runMain_parent w h0 h1, waitCalls, hne]

theorem completion_line_after_wait_witness :
    ∃ pre post, trace ⟨4243, 4242, none, 4243, 9⟩ = pre ++ Event.wait none 4243 :: post ∧
      waitCalls pre = [] ∧ waitCalls post = [] ∧
      Event.printf parentFmt [4242] ∈ pre ∧
      (∀ args, Event.printf doneFmt args ∉ pre) ∧
      Event.printf doneFmt [] ∈ post :=
  completion_line_after_wait ⟨4243, 4242, none, 4243, 9⟩ (by decide) (by decide)

/-- C4: in the child context, when `execlp` returns -1 the child leaves the
`switch` through `break`, reaches the closing brace of `main` and ends with
exit status 0, not with a non-zero status; the sibling failure path
(`fork` returning -1) ends with status 1. -/
theorem child_exec_failure_exit_status_zero :
    outcome ⟨0, 4243, some (-1), 0, 0⟩ = Outcome.mainReturned 0 ∧
      exitStatus (outcome ⟨0, 4243, some (-1), 0, 0⟩) = some 0 ∧
      exitStatus (outcome ⟨-1, 4242, some (-1), 0, 0⟩) = some 1 := by
  decide

/-- C5 as stated fails: the file named in the child's `execlp` call contains
the character `/`. -/
theorem exec_file_contains_slash :
    ¬ (∀ q ∈ execRequests (trace ⟨0, 4243, none, 0, 0⟩),
        '/' ∉ q.1.toList ∧ q.2 = ["ls"]) := by
  decide

/-- C5, amended: the child context makes exactly one image-replacement request;
it names the file by the path `/bin/ls`, which contains `/`, and its argument
vector is exactly the one element `ls`. -/
theorem exec_request_is_bin_ls (w : World) (h : w.forkRet = 0) :
    execRequests (trace w) = [("/bin/ls", ["ls"])] ∧
      ∀ q ∈ execRequests (trace w), '/' ∈ q.1.toList ∧ q.2 = ["ls"] := by
  have hs : '/' ∈ "/bin/ls".toList := by decide
  cases he : w.execlpRet with
  | none => simp [trace, runMain_child_replaced w h he, execRequests, hs]
  | some r => simp [trace, runMain_child_returned w h r he, execRequests, hs]

theorem exec_request_is_bin_ls_witness :
    execRequests (trace ⟨0, 4243, none, 0, 0⟩) = [("/bin/ls", ["ls"])] ∧
      ∀ q ∈ execRequests (trace ⟨0, 4243, none, 0, 0⟩),
        '/' ∈ q.1.toList ∧ q.2 = ["ls"] :=
  exec_request_is_bin_ls ⟨0, 4243, none, 0, 0⟩ rfl

/-- C6: when `fork` succeeds, the child context (fork result 0) requests image
replacement exactly once, the parent context (positive fork result) never
does, and the two traces together hold exactly one request. -/
theorem exactly_one_exec_request (wp wc : World) (hp : 0 < wp.forkRet)
    (hc : wc.forkRet = 0) :
    (execRequests (trace wc)).length = 1 ∧
      execRequests (trace wp) = [] ∧
      (execRequests (trace wc) ++ execRequests (trace wp)).length = 1 := by
  have h0 : wp.forkRet ≠ 0 := by omega
  have h1 : wp.forkRet ≠ -1 := by omega
  cases he : wc.execlpRet with
  | none =>
    simp [trace, runMain_child_replaced wc hc he, runMain_parent wp h0 h1,
      execRequests]
  | some r =>
    simp [trace, runMain_child_returned wc hc r he, runMain_parent wp h0 h1,
      execRequests]

theorem exactly_one_exec_request_witness :
    (execRequests (trace ⟨0, 4243, none, 0, 0⟩)).length = 1 ∧
      execRequests (trace ⟨4243, 4242, none, 4243, 0⟩) = [] ∧
      (execRequests (trace ⟨0, 4243, none, 0, 0⟩) ++
        execRequests (trace ⟨4243, 4242, none, 4243, 0⟩)).length = 1 :=
  exactly_one_exec_request ⟨4243, 4242, none, 4243, 0⟩ ⟨0, 4243, none, 0, 0⟩
    (by decide) rfl

/-- C7: two runs of the parent context that agree on the fork result and on the
parent's own pid make the same writes to standard output and end with the same
exit status, whatever the child's termination status and whatever `wait`
returns in each of them. -/
theorem parent_ignores_wait_result (w1 w2 : World)
    (h0 : w1.forkRet ≠ 0) (h1 : w1.forkRet ≠ -1)
    (hf : w1.forkRet = w2.forkRet) (hp : w1.getpidRet = w2.getpidRet) :
    printfCalls (trace w1) = printfCalls (trace w2) ∧
      exitStatus (outcome w1) = exitStatus (outcome w2) := by
  have h0' : w2.forkRet ≠ 0 := hf ▸ h0
  have h1' : w2.forkRet ≠ -1 := hf ▸ h1
  simp [trace, outcome, runMain_parent w1 h0 h1, runMain_parent w2 h0' h1',
    printfCalls, hp]

theorem parent_ignores_wait_result_witness :
    trace ⟨4243, 4242, none, 4243, 0⟩ ≠ trace ⟨4243, 4242, none, -1, 139⟩ ∧
      printfCalls (trace ⟨4243, 4242, none, 4243, 0⟩) =
        printfCalls (trace ⟨4243, 4242, none, -1, 139⟩) ∧
      exitStatus (outcome ⟨4243, 4242, none, 4243, 0⟩) =
        exitStatus (outcome ⟨4243, 4242, none, -1, 139⟩) :=
  ⟨by decide,
    parent_ignores_wait_result ⟨4243, 4242, none, 4243, 0⟩
      ⟨4243, 4242, none, -1, 139⟩ (by decide) (by decide) rfl rfl⟩

/-- C8: with `stdout` fully buffered (a pipe or a file) and the image
replacement succeeding, the child context makes its one `printf` call but
never writes the announcement: the buffer is lost with the image, and standard
output holds the parent's two lines only.  When `execlp` returns instead, the
child's line is written only after that call, when `main` has returned.  With
`stdout` line buffered (a terminal) the child writes its line before the
`execlp` call and the two contexts write the three lines of the claim. -/
theorem child_announcement_unwritten_when_fully_buffered :
    printfCalls (trace ⟨0, 4243, none, 0, 0⟩) = [(childFmt, [4243])] ∧
      printfCalls (trace ⟨4243, 4242, none, 4243, 0⟩) =
        [(parentFmt, [4242]), (doneFmt, [])] ∧
      fdWrites (actions BufMode.fullyBuffered ⟨0, 4243, none, 0, 0⟩) = [] ∧
      stdoutLines (actions BufMode.fullyBuffered ⟨0, 4243, none, 0, 0⟩) ++
          stdoutLines (actions BufMode.fullyBuffered ⟨4243, 4242, none, 4243, 0⟩) =
        ["parent process takes hold, its process id is 4242",
          "child process has finished the ls command"] ∧
      actions BufMode.fullyBuffered ⟨0, 4243, some (-1), 0, 0⟩ =
        [Action.call (Event.fork 0), Action.call (Event.getpid 4243),
          Action.call (Event.printf childFmt [4243]),
          Action.call (Event.execlp "/bin/ls" ["ls"] (some (-1))),
          Action.write "child process takes hold, its process id is 4243\n"] ∧
      actions BufMode.lineBuffered ⟨0, 4243, none, 0, 0⟩ =
        [Action.call (Event.fork 0), Action.call (Event.getpid 4243),
          Action.call (Event.printf childFmt [4243]),
          Action.write "child process takes hold, its process id is 4243\n",
          Action.call (Event.execlp "/bin/ls" ["ls"] none)] ∧
      stdoutLines (actions BufMode.lineBuffered ⟨0, 4243, none, 0, 0⟩) ++
          stdoutLines (actions BufMode.lineBuffered ⟨4243, 4242, none, 4243, 0⟩) =
        ["child process takes hold, its process id is 4243",
          "parent process takes hold, its process id is 4242",
          "child process has finished the ls command"] := by
  decide

/-- C9: for every value `fork` returns, the calls of the run come from exactly
one label of the `switch`: from `case 0:` if and only if the value is 0, from
`case -1:` if and only if it is -1, and from `default:` if and only if it is
neither (so also for a negative value other than -1). -/
theorem exactly_one_branch (w : World) :
    ((trace w).any Event.underCaseZero = true ↔ w.forkRet = 0) ∧
      ((trace w).any Event.underCaseMinusOne = true ↔ w.forkRet = -1) ∧
      ((trace w).any Event.underDefault = true ↔
        (w.forkRet ≠ 0 ∧ w.forkRet ≠ -1)) := by
  have hpc : (parentFmt == childFmt) = false := by decide
  have hdc : (doneFmt == childFmt) = false := by decide
  have hcp : (childFmt == parentFmt) = false := by decide
  have hcd : (childFmt == doneFmt) = false := by decide
  by_cases h1 : w.forkRet = -1
  · simp [trace, runMain_fork_failed w h1, Event.underCaseZero,
      Event.underCaseMinusOne, Event.underDefault, h1]
  · by_cases h0 : w.forkRet = 0
    · cases he : w.execlpRet with
      | none =>
        simp [trace, runMain_child_replaced w h0 he, Event.underCaseZero,
          Event.underCaseMinusOne, Event.underDefault, h0, hcp, hcd]
      | some r =>
        simp [trace, runMain_child_returned w h0 r he, Event.underCaseZero,
          Event.underCaseMinusOne, Event.underDefault, h0, hcp, hcd]
    · simp [trace, runMain_parent w h0 h1, Event.underCaseZero,
        Event.underCaseMinusOne, Event.underDefault, h0, h1, hpc, hdc]

/-- C10: in the child context, when `execlp` returns, that call is the last
call of the run: the child prints nothing after it, reports no error, makes no
`wait` call and no second `execlp` call, and `main` returns from its closing
brace. -/
theorem child_falls_through_after_exec_failure (w : World) (r : Int)
    (hc : w.forkRet = 0) (he : w.execlpRet = some r) :
    (∃ pre, trace w = pre ++ [Event.execlp "/bin/ls" ["ls"] (some r)] ∧
        execRequests pre = [] ∧
        printfCalls pre = [(childFmt, [w.getpidRet])]) ∧
      printfCalls (trace w) = [(childFmt, [w.getpidRet])] ∧
      (∀ msg, Event.perror msg ∉ trace w) ∧
      waitCalls (trace w) = [] ∧
      (execRequests (trace w)).length = 1 ∧
      outcome w = Outcome.mainReturned 0 := by
  refine ⟨⟨[Event.fork 0, Event.getpid w.getpidRet,
    Event.printf childFmt [w.getpidRet]], ?_⟩, ?_⟩ <;>
  simp [trace, outcome, runMain_child_returned w hc r he, execRequests,
    printfCalls, waitCalls]

theorem child_falls_through_witness :
    (∃ pre, trace ⟨0, 4243, some (-1), 0, 0⟩ =
          pre ++ [Event.execlp "/bin/ls" ["ls"] (some (-1))] ∧
        execRequests pre = [] ∧
        printfCalls pre = [(childFmt, [4243])]) ∧
      printfCalls (trace ⟨0, 4243, some (-1), 0, 0⟩) = [(childFmt, [4243])] ∧
      (∀ msg, Event.perror msg ∉ trace ⟨0, 4243, some (-1), 0, 0⟩) ∧
      waitCalls (trace ⟨0, 4243, some (-1), 0, 0⟩) = [] ∧
      (execRequests (trace ⟨0, 4243, some (-1), 0, 0⟩)).length = 1 ∧
      outcome ⟨0, 4243, some (-1), 0, 0⟩ = Outcome.mainReturned 0 :=
  child_falls_through_after_exec_failure ⟨0, 4243, some (-1), 0, 0⟩ (-1) rfl rfl

end Fork
